import Mathlib

/-!
Verification of the Roo-Code task-orchestration core.

The development shallowly embeds the TypeScript sources:
* `TaskManager` / `Task` (packages/roo-core/src/engine, as laid out in
  STEP-3-PLAN.md) — task lifecycle, single-active-task gate, cancellation;
* `ToolRegistry` / `BaseTool` (STEP-4-PLAN.md) — tool dispatch and sandbox;
* `NodeLogger` (abstractions/nodejs/NodeLogger.ts) — leveled logging;
* `NodeSystemInfo` (abstractions/nodejs/NodeSystemInfo.ts) — machine id.

JavaScript `Date` values are modelled as natural-number timestamps passed
in explicitly, thrown exceptions as `Except.error` carrying the message
string of the thrown `Error`, and the `Map` objects as association lists
with JavaScript `Map.set` replace-in-place semantics.
-/

namespace RooCore

/-- `TaskStatus` from `packages/roo-core/src/types/engine.ts`:
`'pending' | 'running' | 'completed' | 'error' | 'cancelled'`. -/
inductive TaskStatus where
  | pending
  | running
  | completed
  | error
  | cancelled
deriving DecidableEq, BEq

/-- The string literal a `TaskStatus` value denotes in the TypeScript union. -/
def statusName : TaskStatus → String
  | TaskStatus.pending => "pending"
  | TaskStatus.running => "running"
  | TaskStatus.completed => "completed"
  | TaskStatus.error => "error"
  | TaskStatus.cancelled => "cancelled"

/-- `TaskConfig` from `types/engine.ts` (all fields optional). -/
structure TaskConfig where
  maxTokens : Option Nat := none
  temperature : Option Nat := none
  provider : Option String := none
  model : Option String := none
  systemPrompt : Option String := none
  workspaceRoot : Option String := none
  allowedTools : Option (List String) := none
deriving DecidableEq

/-- `TaskResult` from `types/engine.ts`. -/
structure TaskResult where
  success : Bool
  output : String
  tokensUsed : Nat
  duration : Nat
  errorMsg : Option String := none
deriving DecidableEq

/-- `SubTask` from `types/engine.ts`. -/
structure SubTask where
  id : String
  description : String
  status : TaskStatus
  result : Option String := none
deriving DecidableEq

/-- The mutable fields of `engine/Task.ts`.  The private `cancelled` flag is
included; the injected dependencies (logger, file system, AI provider) are
passed to the operations instead of being stored. -/
structure Task where
  id : String
  input : String
  config : TaskConfig
  status : TaskStatus
  createdAt : Nat
  startedAt : Option Nat := none
  completedAt : Option Nat := none
  result : Option TaskResult := none
  errorField : Option String := none
  subTasks : List SubTask := []
  cancelled : Bool := false
deriving DecidableEq

/-- The `Task` constructor: a fresh task starts `pending` with no
timestamps, result or error set. -/
def Task.new (id input : String) (cfg : TaskConfig) (now : Nat) : Task :=
  { id := id, input := input, config := cfg, status := TaskStatus.pending,
    createdAt := now }

/-- Message of the error thrown by `Task.execute` on a non-pending task. -/
def invalidStateMsg (id : String) : String :=
  "Task " ++ id ++ " is not in pending state"

/-- `Task.execute` with the `await` of the AI provider collapsed into one
atomic call (`provider` is `aiProvider.complete`).  `ts` is the clock when
execution starts, `tf` when the provider resolves.  The returned pair is
the task after the method finishes together with the method outcome
(`Except.error` = the method threw). -/
def Task.execute (provider : String → Except String String) (ts tf : Nat)
    (t : Task) : Task × Except String TaskResult :=
  if t.status ≠ TaskStatus.pending then
    (t, Except.error (invalidStateMsg t.id))
  else
    let t1 : Task := { t with status := TaskStatus.running, startedAt := some ts }
    match provider t.input with
    | Except.ok resp =>
        let res : TaskResult :=
          { success := true, output := resp, tokensUsed := 0, duration := tf - ts }
        ({ t1 with status := TaskStatus.completed, completedAt := some tf,
                   result := some res },
         Except.ok res)
    | Except.error e =>
        ({ t1 with status := TaskStatus.error, completedAt := some tf,
                   errorField := some e },
         Except.error e)

/-- `Task.cancel`: returns the task unchanged when the status is
`completed` or `error`; otherwise sets the cancelled flag, the status and
`completedAt`.  Note the early return does not cover `cancelled`. -/
def Task.cancel (now : Nat) (t : Task) : Task :=
  if t.status = TaskStatus.completed ∨ t.status = TaskStatus.error then t
  else
    { t with cancelled := true, status := TaskStatus.cancelled,
             completedAt := some now }

/-- Association list with JavaScript `Map` lookup semantics. -/
def lookupA {α : Type} (m : List (String × α)) (k : String) : Option α :=
  match m with
  | [] => none
  | (k0, v) :: rest => if k0 == k then some v else lookupA rest k

/-- Association list with JavaScript `Map.set` semantics: replace in place
if the key is present, append otherwise. -/
def setA {α : Type} (m : List (String × α)) (k : String) (v : α) :
    List (String × α) :=
  match m with
  | [] => [(k, v)]
  | (k0, v0) :: rest =>
      if k0 == k then (k, v) :: rest else (k0, v0) :: setA rest k v

/-- Events emitted by `TaskManager` (`this.emit(...)` calls). -/
inductive EventRecord where
  | taskCreated (id : String)
  | taskStarted (id : String)
  | taskCompleted (id : String)
  | taskError (id : String)
  | taskCancelled (id : String)
deriving DecidableEq

/-- The mutable state of a `TaskManager` instance: the `tasks` map, the
`activeTask` pointer (stored by id) and the trace of emitted events. -/
structure ManagerState where
  tasks : List (String × Task)
  active : Option String
  events : List EventRecord
deriving DecidableEq

/-- A freshly constructed `TaskManager`. -/
def initManager : ManagerState :=
  { tasks := [], active := none, events := [] }

/-- The externally observable steps of a `TaskManager`.  `executeTask` is
asynchronous: it suspends at `await aiProvider.complete(...)`, so it is
split into `execStart` (the synchronous prefix up to that suspension) and
`execFinish` (the continuation, carrying the provider outcome `resp`).
`cancel` can therefore be interleaved between the two, exactly as a
cancellation request arriving while a task is executing. -/
inductive Op where
  | create (id input : String) (cfg : TaskConfig) (now : Nat)
  | execStart (id : String) (now : Nat)
  | execFinish (id : String) (resp : Except String String) (now : Nat)
  | cancel (id : String) (now : Nat)

/-- Message of the error thrown by `executeTask` and `cancelTask` on an
unknown id. -/
def notFoundMsg (id : String) : String := "Task " ++ id ++ " not found"

/-- Message of the error thrown by `executeTask` while another task is
active. -/
def alreadyRunningMsg : String := "Another task is already running"

/-- One step of the `TaskManager`, returning the new state and the outcome
of the API call (`Except.error` = the call threw). -/
def stepOp (o : Op) (s : ManagerState) : ManagerState × Except String Unit :=
  match o with
  | Op.create id input cfg now =>
      ({ s with tasks := setA s.tasks id (Task.new id input cfg now),
                events := s.events ++ [EventRecord.taskCreated id] },
       Except.ok ())
  | Op.execStart id now =>
      match lookupA s.tasks id with
      | none => (s, Except.error (notFoundMsg id))
      | some t =>
          match s.active with
          | some _ => (s, Except.error alreadyRunningMsg)
          | none =>
              if t.status == TaskStatus.pending then
                ({ s with
                     tasks := setA s.tasks id
                       { t with status := TaskStatus.running,
                                startedAt := some now },
                     active := some id,
                     events := s.events ++ [EventRecord.taskStarted id] },
                 Except.ok ())
              else
                ({ s with events := s.events ++
                     [EventRecord.taskStarted id, EventRecord.taskError id] },
                 Except.error (invalidStateMsg id))
  | Op.execFinish id resp now =>
      match s.active with
      | some aid =>
          if aid == id then
            match lookupA s.tasks id with
            | some t =>
                match resp with
                | Except.ok output =>
                    let res : TaskResult :=
                      { success := true, output := output, tokensUsed := 0,
                        duration := now - t.startedAt.getD 0 }
                    ({ s with
                         tasks := setA s.tasks id
                           { t with status := TaskStatus.completed,
                                    completedAt := some now,
                                    result := some res },
                         active := none,
                         events := s.events ++ [EventRecord.taskCompleted id] },
                     Except.ok ())
                | Except.error e =>
                    ({ s with
                         tasks := setA s.tasks id
                           { t with status := TaskStatus.error,
                                    completedAt := some now,
                                    errorField := some e },
                         active := none,
                         events := s.events ++ [EventRecord.taskError id] },
                     Except.error e)
            | none => (s, Except.ok ())
          else (s, Except.ok ())
      | none => (s, Except.ok ())
  | Op.cancel id now =>
      match lookupA s.tasks id with
      | none => (s, Except.error (notFoundMsg id))
      | some t =>
          ({ s with tasks := setA s.tasks id (Task.cancel now t),
                    events := s.events ++ [EventRecord.taskCancelled id] },
           Except.ok ())

/-- The states a `TaskManager` can reach from construction. -/
inductive Reachable : ManagerState → Prop where
  | init : Reachable initManager
  | step (o : Op) {s : ManagerState} : Reachable s → Reachable (stepOp o s).1

/-- A status counts as active when it is `running`; the source `TaskStatus`
union has no `awaiting_approval` member. -/
def activeStatus (st : TaskStatus) : Bool := st == TaskStatus.running

/-! ## Tool registry (STEP-4-PLAN.md) -/

/-- A tool invocation outcome, following §4.3 of the specification:
`{success: true, output}` or `{success: false, errorKind, message}`. -/
structure ToolResult where
  success : Bool
  output : String
  errorKind : Option String := none
  message : String := ""
deriving DecidableEq

/-- A registered tool: its unique name and its `execute` member.  The
member returns `Except.error` when the tool throws. -/
structure RegTool where
  name : String
  run : List (String × String) → Except String ToolResult

/-- `ToolRegistry.register`: `this.tools.set(tool.name, tool)`. -/
def registerTool (reg : List (String × RegTool)) (t : RegTool) :
    List (String × RegTool) :=
  setA reg t.name t

/-- `ToolRegistry.execute`: looks the tool up and awaits its `execute`;
an unknown name throws `Tool ${name} not found`, and nothing is caught. -/
def ToolRegistry.execute (reg : List (String × RegTool)) (name : String)
    (params : List (String × String)) : Except String ToolResult :=
  match lookupA reg name with
  | none => Except.error ("Tool " ++ name ++ " not found")
  | some t => t.run params

/-! ## Sandbox path containment

`BaseTool.sanitizePath` in STEP-4-PLAN.md is declared with an empty body
(only the comment "Path traversal protection"), and the concrete tool
classes that would call it are not part of the source.  The definitions
below are therefore modelled from the specification (§4.3 step 2 and the
§8 sandbox-containment property). -/

/-- Splits a character list at `/`, accumulating the current segment in
reverse. -/
def splitSlashAux : List Char → List Char → List String
  | [], acc => [String.mk acc.reverse]
  | c :: rest, acc =>
      if c = '/' then String.mk acc.reverse :: splitSlashAux rest []
      else splitSlashAux rest (c :: acc)

/-- The `/`-separated segments of a path, dropping empty segments. -/
def pathSegments (p : String) : List String :=
  (splitSlashAux p.data []).filter (fun s => s ≠ "")

/-- A path contains a traversal sequence when one of its segments is
`..`. -/
def hasTraversal (p : String) : Bool :=
  (pathSegments p).contains ".."

/-- Whether a path is absolute (begins with `/`). -/
def isAbsolutePath (p : String) : Bool :=
  match p.data with
  | '/' :: _ => true
  | _ => false

/-- Resolution of a path parameter against the workspace root: an absolute
path stands alone, a relative one is appended to the root segments. -/
def resolvePath (root p : String) : List String :=
  if isAbsolutePath p then pathSegments p
  else pathSegments root ++ pathSegments p

/-- A resolved path is inside the workspace root when the root segments
are a prefix of it. -/
def isWithinRoot (root : String) (resolved : List String) : Bool :=
  (pathSegments root).isPrefixOf resolved

/-- Modelled from the spec: `BaseTool.sanitizePath` (empty stub in the
source).  Per §4.3, a path parameter is resolved against the workspace
root and any traversal sequence or resolution escaping the root fails
with a `SandboxViolation` before any I/O. -/
def sanitizePath (root p : String) : Except String String :=
  if hasTraversal p then
    Except.error "SandboxViolation: path traversal"
  else
    let resolved := resolvePath root p
    if isWithinRoot root resolved then
      Except.ok ("/" ++ String.intercalate "/" resolved)
    else
      Except.error "SandboxViolation: path escapes workspace root"

/-- The observable file-system state mutated by write-class tools. -/
structure FsState where
  files : List (String × String)
deriving DecidableEq

/-- Modelled from the spec: the `writeToFileTool` pipeline — sanitize the
path parameter first, perform the write only on success, and surface a
sanitizer failure as a typed `SandboxViolation` result with no I/O. -/
def writeFileTool (root : String) (fs : FsState) (p content : String) :
    FsState × ToolResult :=
  match sanitizePath root p with
  | Except.error m =>
      (fs, { success := false, output := "",
             errorKind := some "SandboxViolation", message := m })
  | Except.ok resolved =>
      ({ files := setA fs.files resolved content },
       { success := true, output := resolved, errorKind := none, message := "" })

/-! ## The model-tool iteration loop

`Task.executeTaskLogic` in STEP-3-PLAN.md is a placeholder (a single
provider call behind a TODO), and `maxIterations` appears only in the API
roadmap configuration example, so the loop is modelled from the
specification (§4.2 iteration bound, §4.3 tool results fed back). -/

/-- One turn of the exchange history (§3 of the specification). -/
inductive Turn where
  | modelTurn (text : String) (calls : List (String × List (String × String)))
  | toolResultTurn (toolName : String) (success : Bool) (output : String)
deriving DecidableEq

/-- What the model collaborator returns for one round. -/
inductive ModelReply where
  | finalText (s : String)
  | toolCall (name : String) (params : List (String × String))

/-- Why a task loop ends in `failed`; the iteration-limit reason is a
distinct constructor, separate from model and tool errors. -/
inductive LoopFailReason where
  | iterationLimitExceeded
  | modelError (msg : String)
  | toolError (msg : String)
deriving DecidableEq

/-- Outcome of the loop, carrying the number of completed model-to-tool
round trips. -/
inductive LoopOutcome where
  | completed (answer : String) (rounds : Nat)
  | failed (reason : LoopFailReason) (rounds : Nat)
deriving DecidableEq

/-- Round-trip count of an outcome. -/
def LoopOutcome.rounds : LoopOutcome → Nat
  | LoopOutcome.completed _ n => n
  | LoopOutcome.failed _ n => n

/-- Modelled from the spec: the bounded model-tool loop of §4.2.  `fuel`
is the number of round trips still allowed and `used` the number already
performed; plain text completes the task, a tool call is executed and its
result (success or failure) appended as a tool-result turn before looping,
exhausting the bound fails with the distinct iteration-limit reason, and
an unrecoverable model error fails with a model-error reason. -/
def runTaskLoop (model : List Turn → Except String ModelReply)
    (tools : String → List (String × String) → Except String String) :
    Nat → List Turn → Nat → LoopOutcome
  | 0, _, used => LoopOutcome.failed LoopFailReason.iterationLimitExceeded used
  | fuel + 1, hist, used =>
      match model hist with
      | Except.error e => LoopOutcome.failed (LoopFailReason.modelError e) used
      | Except.ok (ModelReply.finalText s) => LoopOutcome.completed s used
      | Except.ok (ModelReply.toolCall name params) =>
          let hist1 := hist ++ [Turn.modelTurn "" [(name, params)]]
          match tools name params with
          | Except.ok out =>
              runTaskLoop model tools fuel
                (hist1 ++ [Turn.toolResultTurn name true out]) (used + 1)
          | Except.error e =>
              runTaskLoop model tools fuel
                (hist1 ++ [Turn.toolResultTurn name false e]) (used + 1)

/-! ## NodeLogger (abstractions/nodejs/NodeLogger.ts) -/

/-- `LogLevel` from interfaces/ILogger.ts:
`'debug' | 'info' | 'warn' | 'error'`. -/
inductive LogLevel where
  | debug
  | info
  | warn
  | error
deriving DecidableEq

/-- The `levels` record inside `NodeLogger.shouldLog`. -/
def levelRank : LogLevel → Nat
  | LogLevel.debug => 0
  | LogLevel.info => 1
  | LogLevel.warn => 2
  | LogLevel.error => 3

/-- The lowercase name of a level (the TypeScript string literal). -/
def levelName : LogLevel → String
  | LogLevel.debug => "debug"
  | LogLevel.info => "info"
  | LogLevel.warn => "warn"
  | LogLevel.error => "error"

/-- The state of a `NodeLogger` instance: the configured minimum level
(defaulting to `'info'`) and the component prefix. -/
structure NodeLogger where
  level : LogLevel := LogLevel.info
  prefixStr : String := ""
deriving DecidableEq

/-- `new NodeLogger(prefix)`. -/
def NodeLogger.new (pfx : String) : NodeLogger :=
  { level := LogLevel.info, prefixStr := pfx }

/-- `NodeLogger.shouldLog`: `levels[level] >= levels[this.level]`. -/
def NodeLogger.shouldLog (lg : NodeLogger) (l : LogLevel) : Bool :=
  decide (levelRank l ≥ levelRank lg.level)

/-- `String.padEnd(n)` with spaces. -/
def padEnd (s : String) (n : Nat) : String :=
  s ++ String.mk (List.replicate (n - s.length) ' ')

/-- `NodeLogger.formatMessage`; `timestamp` stands for
`new Date().toISOString()`. -/
def NodeLogger.formatMessage (lg : NodeLogger) (l : LogLevel)
    (timestamp message : String) : String :=
  let levelStr := padEnd (levelName l).toUpper 5
  let prefixPart := if lg.prefixStr ≠ "" then "[" ++ lg.prefixStr ++ "] " else ""
  timestamp ++ " " ++ levelStr ++ " " ++ prefixPart ++ message

/-- `NodeLogger.debug`: the console line written, or `none` when the
message is filtered out. -/
def NodeLogger.debugLine (lg : NodeLogger) (timestamp message : String) :
    Option String :=
  if lg.shouldLog LogLevel.debug then
    some (lg.formatMessage LogLevel.debug timestamp message)
  else none

/-- `NodeLogger.info`. -/
def NodeLogger.infoLine (lg : NodeLogger) (timestamp message : String) :
    Option String :=
  if lg.shouldLog LogLevel.info then
    some (lg.formatMessage LogLevel.info timestamp message)
  else none

/-- `NodeLogger.warn`. -/
def NodeLogger.warnLine (lg : NodeLogger) (timestamp message : String) :
    Option String :=
  if lg.shouldLog LogLevel.warn then
    some (lg.formatMessage LogLevel.warn timestamp message)
  else none

/-- The `string | Error` argument of `NodeLogger.error`. -/
inductive ErrArg where
  | plain (s : String)
  | errObj (message : String) (stack : Option String)
deriving DecidableEq

/-- The message text `NodeLogger.error` extracts from its argument. -/
def ErrArg.messageOf : ErrArg → String
  | ErrArg.plain s => s
  | ErrArg.errObj m _ => m

/-- The stack `NodeLogger.error` extracts from its argument. -/
def ErrArg.stackOf : ErrArg → Option String
  | ErrArg.plain _ => none
  | ErrArg.errObj _ st => st

/-- `NodeLogger.error`: the formatted line plus the optional stack line. -/
def NodeLogger.errorLine (lg : NodeLogger) (timestamp : String) (m : ErrArg) :
    Option (String × Option String) :=
  if lg.shouldLog LogLevel.error then
    some (lg.formatMessage LogLevel.error timestamp m.messageOf, m.stackOf)
  else none

/-- `NodeLogger.log(message)`: calls `this.info(message)`. -/
def NodeLogger.logLine (lg : NodeLogger) (timestamp message : String) :
    Option String :=
  lg.infoLine timestamp message

/-- `NodeLogger.setLevel`. -/
def NodeLogger.setLevel (lg : NodeLogger) (l : LogLevel) : NodeLogger :=
  { lg with level := l }

/-- `NodeLogger.child(prefix)`: a fresh logger with the concatenated
prefix, then `child.setLevel(this.level)`. -/
def NodeLogger.child (lg : NodeLogger) (pfx : String) : NodeLogger :=
  let childPrefix :=
    if lg.prefixStr ≠ "" then lg.prefixStr ++ ":" ++ pfx else pfx
  (NodeLogger.new childPrefix).setLevel lg.level

/-! ## SHA-256 (Node `crypto.createHash('sha256')`) -/

/-- Reduction modulo the 32-bit word size. -/
def w32 (x : Nat) : Nat := x % 4294967296

/-- 32-bit right rotation (inputs below `2 ^ 32`). -/
def rotr (n x : Nat) : Nat := x / 2 ^ n + x % 2 ^ n * 2 ^ (32 - n)

/-- Logical right shift. -/
def shr (n x : Nat) : Nat := x / 2 ^ n

/-- SHA-256 `Ch(x, y, z)`; complement taken against the 32-bit mask. -/
def chFn (x y z : Nat) : Nat := (x &&& y) ^^^ ((x ^^^ 4294967295) &&& z)

/-- SHA-256 `Maj(x, y, z)`. -/
def majFn (x y z : Nat) : Nat := (x &&& y) ^^^ (x &&& z) ^^^ (y &&& z)

/-- SHA-256 big sigma 0. -/
def bigSigma0 (x : Nat) : Nat := rotr 2 x ^^^ rotr 13 x ^^^ rotr 22 x

/-- SHA-256 big sigma 1. -/
def bigSigma1 (x : Nat) : Nat := rotr 6 x ^^^ rotr 11 x ^^^ rotr 25 x

/-- SHA-256 small sigma 0. -/
def smallSigma0 (x : Nat) : Nat := rotr 7 x ^^^ rotr 18 x ^^^ shr 3 x

/-- SHA-256 small sigma 1. -/
def smallSigma1 (x : Nat) : Nat := rotr 17 x ^^^ rotr 19 x ^^^ shr 10 x

/-- The SHA-256 round constants. -/
def shaK : List Nat :=
  [1116352408, 1899447441, 3049323471, 3921009573, 961987163,
   1508970993, 2453635748, 2870763221, 3624381080, 310598401,
   607225278, 1426881987, 1925078388, 2162078206, 2614888103,
   3248222580, 3835390401, 4022224774, 264347078, 604807628,
   770255983, 1249150122, 1555081692, 1996064986, 2554220882,
   2821834349, 2952996808, 3210313671, 3336571891, 3584528711,
   113926993, 338241895, 666307205, 773529912, 1294757372,
   1396182291, 1695183700, 1986661051, 2177026350, 2456956037,
   2730485921, 2820302411, 3259730800, 3345764771, 3516065817,
   3600352804, 4094571909, 275423344, 430227734, 506948616,
   659060556, 883997877, 958139571, 1322822218, 1537002063,
   1747873779, 1955562222, 2024104815, 2227730452, 2361852424,
   2428436474, 2756734187, 3204031479, 3329325298]

/-- The eight SHA-256 chaining words. -/
structure H8 where
  h0 : Nat
  h1 : Nat
  h2 : Nat
  h3 : Nat
  h4 : Nat
  h5 : Nat
  h6 : Nat
  h7 : Nat

/-- The SHA-256 initial hash value. -/
def initH : H8 :=
  ⟨1779033703, 3144134277, 1013904242,
   2773480762, 1359893119, 2600822924,
   528734635, 1541459225⟩

/-- The working variables of one compression round. -/
structure RoundState where
  a : Nat
  b : Nat
  c : Nat
  d : Nat
  e : Nat
  f : Nat
  g : Nat
  h : Nat

/-- One SHA-256 compression round for the constant-and-schedule pair. -/
def shaRound (st : RoundState) (kw : Nat × Nat) : RoundState :=
  let t1 := w32 (st.h + bigSigma1 st.e + chFn st.e st.f st.g + kw.1 + kw.2)
  let t2 := w32 (bigSigma0 st.a + majFn st.a st.b st.c)
  ⟨w32 (t1 + t2), st.a, st.b, st.c, w32 (st.d + t1), st.e, st.f, st.g⟩

/-- Extends the 16-word block schedule by `n` further words. -/
def extendSchedule : List Nat → Nat → List Nat
  | w, 0 => w
  | w, n + 1 =>
      extendSchedule
        (w ++ [w32 (smallSigma1 (w.getD (w.length - 2) 0) +
                    w.getD (w.length - 7) 0 +
                    smallSigma0 (w.getD (w.length - 15) 0) +
                    w.getD (w.length - 16) 0)])
        n

/-- Big-endian 32-bit words of a 64-byte block. -/
def wordsOfBlock : List Nat → List Nat
  | b0 :: b1 :: b2 :: b3 :: rest =>
      (b0 * 16777216 + b1 * 65536 + b2 * 256 + b3) :: wordsOfBlock rest
  | _ => []

/-- Compresses one 64-byte block into the chaining value. -/
def compressBlock (H : H8) (block : List Nat) : H8 :=
  let w := extendSchedule (wordsOfBlock block) 48
  let first : RoundState := ⟨H.h0, H.h1, H.h2, H.h3, H.h4, H.h5, H.h6, H.h7⟩
  let last := (shaK.zip w).foldl shaRound first
  ⟨w32 (H.h0 + last.a), w32 (H.h1 + last.b), w32 (H.h2 + last.c),
   w32 (H.h3 + last.d), w32 (H.h4 + last.e), w32 (H.h5 + last.f),
   w32 (H.h6 + last.g), w32 (H.h7 + last.h)⟩

/-- The eight big-endian length bytes of the SHA-256 padding. -/
def lenBytes (n : Nat) : List Nat :=
  [n / 2 ^ 56 % 256, n / 2 ^ 48 % 256, n / 2 ^ 40 % 256, n / 2 ^ 32 % 256,
   n / 2 ^ 24 % 256, n / 2 ^ 16 % 256, n / 2 ^ 8 % 256, n % 256]

/-- SHA-256 message padding: `0x80`, zeros to 56 mod 64, then the bit
length. -/
def padMessage (msg : List Nat) : List Nat :=
  let len := msg.length
  let zeros := (64 + 56 - (len + 1) % 64) % 64
  msg ++ [128] ++ List.replicate zeros 0 ++ lenBytes (len * 8)

/-- Splits a byte list into 64-byte blocks. -/
def toBlocks (l : List Nat) : List (List Nat) :=
  if h : l = [] then []
  else
    l.take 64 :: toBlocks (l.drop 64)
termination_by l.length
decreasing_by
  simp only [List.length_drop]
  have hl : 0 < l.length := List.length_pos.mpr h
  omega

/-- The four big-endian bytes of a 32-bit word. -/
def w4 (w : Nat) : List Nat :=
  [w / 16777216 % 256, w / 65536 % 256, w / 256 % 256, w % 256]

/-- SHA-256 of a byte sequence, as 32 digest bytes. -/
def sha256 (msg : List Nat) : List Nat :=
  let final := (toBlocks (padMessage msg)).foldl compressBlock initH
  w4 final.h0 ++ w4 final.h1 ++ w4 final.h2 ++ w4 final.h3 ++
  w4 final.h4 ++ w4 final.h5 ++ w4 final.h6 ++ w4 final.h7

/-- The sixteen lowercase hexadecimal digit characters. -/
def hexDigits : List Char := "0123456789abcdef".data

/-- The lowercase hexadecimal digit for a value below sixteen. -/
def hexDigit (n : Nat) : Char := hexDigits.getD n '0'

/-- Whether a character is a lowercase hexadecimal digit. -/
def isLowerHexDigit (c : Char) : Bool := decide (c ∈ hexDigits)

/-- `digest('hex')`: two lowercase hexadecimal characters per byte. -/
def hexEncode : List Nat → List Char
  | [] => []
  | b :: rest => hexDigit (b / 16) :: hexDigit (b % 16) :: hexEncode rest

/-! ## NodeSystemInfo (abstractions/nodejs/NodeSystemInfo.ts) -/

/-- The host facts `NodeSystemInfo.machineId` reads: `os.hostname()`,
`os.platform()` and `os.arch()`. -/
structure HostEnv where
  hostname : String
  platform : String
  arch : String

/-- The identifier string hashed by the `machineId` getter. -/
def machineIdentifier (e : HostEnv) : String :=
  e.hostname ++ "-" ++ e.platform ++ "-" ++ e.arch

/-- Bytes of a string (code points; the identifier is plain ASCII). -/
def strBytes (s : String) : List Nat := s.data.map Char.toNat

/-- The value computed on a cache miss of the `machineId` getter:
`createHash('sha256').update(identifier).digest('hex').substring(0, 32)`. -/
def computeMachineId (e : HostEnv) : String :=
  String.mk ((hexEncode (sha256 (strBytes (machineIdentifier e)))).take 32)

/-- A `NodeSystemInfo` instance: the host environment and the private
`_machineId` cache. -/
structure NodeSystemInfo where
  env : HostEnv
  machineIdCache : Option String

/-- `new NodeSystemInfo()` in the given host environment. -/
def mkNodeSystemInfo (e : HostEnv) : NodeSystemInfo :=
  { env := e, machineIdCache := none }

/-- The `machineId` getter: returns the cached value if present, otherwise
computes, caches and returns it. -/
def machineIdRead (s : NodeSystemInfo) : String × NodeSystemInfo :=
  match s.machineIdCache with
  | some v => (v, s)
  | none =>
      let v := computeMachineId s.env
      (v, { s with machineIdCache := some v })

/-! ## Derived notions and concrete fixtures -/

/-- The single-active-task invariant carried through every reachable
manager state: a `running` task is always the `activeTask`. -/
def ManagerInv (s : ManagerState) : Prop :=
  ∀ id t, lookupA s.tasks id = some t → t.status = TaskStatus.running →
    s.active = some id

/-- Status of the stored task with the given id. -/
def statusAt (s : ManagerState) (id : String) : Option TaskStatus :=
  (lookupA s.tasks id).map Task.status

/-- The net status changes the atomic task operations may perform:
the reflexive-transitive closure of
`pending → running → completed | error` and
`pending | running → cancelled`. -/
def allowedTransition : TaskStatus → TaskStatus → Bool
  | TaskStatus.pending, TaskStatus.pending => true
  | TaskStatus.pending, TaskStatus.running => true
  | TaskStatus.pending, TaskStatus.completed => true
  | TaskStatus.pending, TaskStatus.error => true
  | TaskStatus.pending, TaskStatus.cancelled => true
  | TaskStatus.running, TaskStatus.running => true
  | TaskStatus.running, TaskStatus.completed => true
  | TaskStatus.running, TaskStatus.error => true
  | TaskStatus.running, TaskStatus.cancelled => true
  | TaskStatus.completed, TaskStatus.completed => true
  | TaskStatus.error, TaskStatus.error => true
  | TaskStatus.cancelled, TaskStatus.cancelled => true
  | _, _ => false

/-- The six status strings named by the specification (§3 / §4.2). -/
def specStatusNames : List String :=
  ["pending", "running", "awaiting_approval", "completed", "failed",
   "cancelled"]

/-- An empty `TaskConfig`, as in `createTask('test', {})` of the unit
tests. -/
def cfg0 : TaskConfig := {}

/-- Manager state after creating `t1`, starting it and creating `t2`. -/
def sW : ManagerState :=
  (stepOp (Op.create "t2" "second input" cfg0 2)
    ((stepOp (Op.execStart "t1" 1)
      ((stepOp (Op.create "t1" "first input" cfg0 0) initManager).1)).1)).1

/-- The running task stored under `t1` in `sW`. -/
def tRunW : Task := (lookupA sW.tasks "t1").getD (Task.new "t1" "x" cfg0 0)

/-- Trace state: `t1` created. -/
def sC3a : ManagerState := (stepOp (Op.create "t1" "demo" cfg0 0) initManager).1

/-- Trace state: `executeTask('t1')` has started and is awaiting the
provider. -/
def sC3b : ManagerState := (stepOp (Op.execStart "t1" 1) sC3a).1

/-- Trace state: `cancelTask('t1')` arrived while the provider call was in
flight; the task is now `cancelled`. -/
def sC3c : ManagerState := (stepOp (Op.cancel "t1" 2) sC3b).1

/-- Trace state: the provider call then resolved and the pending
`execute` continuation ran to completion. -/
def sC3d : ManagerState :=
  (stepOp (Op.execFinish "t1" (Except.ok "answer") 3) sC3c).1

/-- A task cancelled at time 5 — already in a terminal state. -/
def tCancelledW : Task := Task.cancel 5 (Task.new "t1" "inp" cfg0 0)

/-- A task completed at time 2 — already in a terminal state. -/
def tDoneW : Task :=
  (Task.execute (fun _ => Except.ok "done") 1 2 (Task.new "t2" "inp" cfg0 0)).1

/-- A task whose provider threw — status `error`. -/
def tErrW : Task :=
  (Task.execute (fun _ => Except.error "provider unreachable") 1 2
    (Task.new "t3" "inp" cfg0 0)).1

/-- A model stub that always requests a benign tool call. -/
def modelW : List Turn → Except String ModelReply :=
  fun _ => Except.ok (ModelReply.toolCall "list_files" [])

/-- A tool stub that always succeeds. -/
def toolsW : String → List (String × String) → Except String String :=
  fun _ _ => Except.ok "ok"

/-- A registered echo tool used to exercise the registry. -/
def echoTool : RegTool :=
  { name := "echo",
    run := fun _ =>
      Except.ok { success := true, output := "echo", errorKind := none,
                  message := "" } }

/-- An empty observable file system. -/
def fs0 : FsState := { files := [] }

/-- A concrete host environment. -/
def envW : HostEnv := { hostname := "myhost", platform := "linux", arch := "x64" }

/-! # Theorems -/

/-- Looking up the key just set returns the new value. -/
theorem lookupA_setA_self {α : Type} (m : List (String × α)) (k : String)
    (v : α) : lookupA (setA m k v) k = some v := by
  induction m with
  | nil => simp [setA, lookupA]
  | cons hd tl ih =>
      obtain ⟨k0, v0⟩ := hd
      by_cases h : k0 = k
      · subst h
        simp [setA, lookupA]
      · simp [setA, lookupA, h, ih]

/-- Setting one key leaves lookups of other keys unchanged. -/
theorem lookupA_setA_ne {α : Type} (m : List (String × α)) (k j : String)
    (v : α) (h : k ≠ j) : lookupA (setA m k v) j = lookupA m j := by
  induction m with
  | nil => simp [setA, lookupA, h]
  | cons hd tl ih =>
      obtain ⟨k0, v0⟩ := hd
      by_cases h0 : k0 = k
      · subst h0
        simp [setA, lookupA, h]
      · simp [setA, lookupA, h0, ih]

/-- `Task.cancel` never yields a `running` task. -/
theorem cancel_status_not_running (n : Nat) (t : Task) :
    (Task.cancel n t).status ≠ TaskStatus.running := by
  unfold Task.cancel
  split
  · rename_i h
    rcases h with h | h <;> simp [h]
  · simp

/-- `activeStatus` characterised. -/
theorem activeStatus_iff (st : TaskStatus) :
    activeStatus st = true ↔ st = TaskStatus.running := by
  cases st <;> decide

/-- The invariant holds at construction. -/
theorem managerInv_init : ManagerInv initManager := by
  intro id t h
  simp [initManager, lookupA] at h

/-- Every `TaskManager` step preserves the invariant. -/
theorem managerInv_step (o : Op) (s : ManagerState) (hs : ManagerInv s) :
    ManagerInv (stepOp o s).1 := by
  cases o with
  | create id input cfg now =>
      intro j u hj hrun
      simp only [stepOp] at hj ⊢
      by_cases hij : id = j
      · subst hij
        rw [lookupA_setA_self] at hj
        cases hj
        simp [Task.new] at hrun
      · rw [lookupA_setA_ne _ _ _ _ hij] at hj
        exact hs j u hj hrun
  | execStart id now =>
      intro j u hj hrun
      rcases hl : lookupA s.tasks id with _ | t
      · simp only [stepOp, hl] at hj ⊢
        exact hs j u hj hrun
      · rcases ha : s.active with _ | aid
        · rcases hp : (t.status == TaskStatus.pending) with _ | _
          · simp only [stepOp, hl, ha, hp, Bool.false_eq_true, if_false] at hj ⊢
            have := hs j u hj hrun
            rw [ha] at this
            exact this
          · simp only [stepOp, hl, ha, hp, if_true] at hj ⊢
            by_cases hij : id = j
            · subst hij
              rfl
            · rw [lookupA_setA_ne _ _ _ _ hij] at hj
              have := hs j u hj hrun
              rw [ha] at this
              cases this
        · simp only [stepOp, hl, ha] at hj ⊢
          have := hs j u hj hrun
          rw [ha] at this
          exact this
  | execFinish id resp now =>
      intro j u hj hrun
      rcases ha : s.active with _ | aid
      · simp only [stepOp, ha] at hj ⊢
        have := hs j u hj hrun
        rw [ha] at this
        exact this
      · rcases hae : (aid == id) with _ | _
        · simp only [stepOp, ha, hae, Bool.false_eq_true, if_false] at hj ⊢
          have := hs j u hj hrun
          rw [ha] at this
          exact this
        · have haid : aid = id := by
            exact eq_of_beq hae
          subst haid
          rcases hl : lookupA s.tasks aid with _ | t
          · simp only [stepOp, ha, hae, if_true, hl] at hj ⊢
            have := hs j u hj hrun
            rw [ha] at this
            exact this
          · rcases resp with e | output
            · simp only [stepOp, ha, hae, if_true, hl] at hj ⊢
              by_cases hij : aid = j
              · subst hij
                rw [lookupA_setA_self] at hj
                cases hj
                simp at hrun
              · rw [lookupA_setA_ne _ _ _ _ hij] at hj
                have := hs j u hj hrun
                rw [ha] at this
                cases this
                exact absurd rfl hij
            · simp only [stepOp, ha, hae, if_true, hl] at hj ⊢
              by_cases hij : aid = j
              · subst hij
                rw [lookupA_setA_self] at hj
                cases hj
                simp at hrun
              · rw [lookupA_setA_ne _ _ _ _ hij] at hj
                have := hs j u hj hrun
                rw [ha] at this
                cases this
                exact absurd rfl hij
  | cancel id now =>
      intro j u hj hrun
      rcases hl : lookupA s.tasks id with _ | t
      · simp only [stepOp, hl] at hj ⊢
        exact hs j u hj hrun
      · simp only [stepOp, hl] at hj ⊢
        by_cases hij : id = j
        · subst hij
          rw [lookupA_setA_self] at hj
          cases hj
          exact absurd hrun (cancel_status_not_running now t)
        · rw [lookupA_setA_ne _ _ _ _ hij] at hj
          exact hs j u hj hrun

/-- Every reachable manager state satisfies the invariant. -/
theorem managerInv_reachable (s : ManagerState) (h : Reachable s) :
    ManagerInv s := by
  induction h with
  | init => exact managerInv_init
  | step o _ ih => exact managerInv_step o _ ih

/-- Claim C1: over every sequence of `createTask` / `executeTask` (and
`cancelTask`) calls on one `TaskManager`, at most one stored task is ever
`running` (the source `TaskStatus` union has no `awaiting_approval`
member, so `running` is the only active status); and a second
`executeTask` call issued for an existing task while another task is
active throws `Another task is already running` and leaves the whole
manager state, in particular the first task, unchanged. -/
theorem singleActiveTask :
    (∀ s : ManagerState, Reachable s →
      ∀ id1 id2 t1 t2, lookupA s.tasks id1 = some t1 →
        lookupA s.tasks id2 = some t2 →
        activeStatus t1.status = true → activeStatus t2.status = true →
        id1 = id2) ∧
    (∀ (s : ManagerState) (id : String) (now : Nat),
      (lookupA s.tasks id).isSome = true → s.active.isSome = true →
      stepOp (Op.execStart id now) s = (s, Except.error alreadyRunningMsg)) := by
  constructor
  · intro s hr id1 id2 t1 t2 h1 h2 ha1 ha2
    have inv := managerInv_reachable s hr
    have e1 : s.active = some id1 :=
      inv id1 t1 h1 ((activeStatus_iff t1.status).mp ha1)
    have e2 : s.active = some id2 :=
      inv id2 t2 h2 ((activeStatus_iff t2.status).mp ha2)
    rw [e1] at e2
    exact Option.some.inj e2
  · intro s id now hl ha
    rcases Option.isSome_iff_exists.mp hl with ⟨t, ht⟩
    rcases Option.isSome_iff_exists.mp ha with ⟨aid, hact⟩
    simp only [stepOp, ht, hact]

/-- Concrete use of `singleActiveTask`: in the reachable state `sW` (task
`t1` running, `t2` pending) the uniqueness part applies to the running
task, and starting `t2` fails with the already-running error leaving the
state untouched. -/
theorem singleActiveTask_witness :
    ("t1" : String) = "t1" ∧
    stepOp (Op.execStart "t2" 5) sW = (sW, Except.error alreadyRunningMsg) := by
  constructor
  · exact singleActiveTask.1 sW
      (Reachable.step _ (Reachable.step _ (Reachable.step _ Reachable.init)))
      "t1" "t1" tRunW tRunW (by decide) (by decide) (by decide) (by decide)
  · exact singleActiveTask.2 sW "t2" 5 (by decide) (by decide)

/-- Claim C3 (failing trace): `cancelTask` delivered while `executeTask`
awaits the provider puts the task in the terminal `cancelled` state, yet
when the provider resolves, the pending `execute` continuation overwrites
`status` with `completed` and sets `result` — the code never consults its
`cancelled` flag (`checkCancellation` is defined but never called). -/
theorem terminalCancelledOverwritten :
    statusAt sC3b "t1" = some TaskStatus.running ∧
    statusAt sC3c "t1" = some TaskStatus.cancelled ∧
    statusAt sC3d "t1" = some TaskStatus.completed ∧
    (lookupA sC3c.tasks "t1").bind Task.result = none ∧
    (lookupA sC3d.tasks "t1").bind Task.result ≠ none := by
  decide

/-- Claim C4 (counterexample): for a task already in the terminal state
`cancelled`, a second `cancelTask` at a later clock overwrites
`completedAt`, so the observable state after two calls differs from the
state after one. -/
theorem cancelNotIdempotentOnCancelled :
    (Task.cancel 7 (Task.cancel 6 tCancelledW)).completedAt ≠
      (Task.cancel 6 tCancelledW).completedAt := by
  decide

/-- Claim C4 (amended): `cancelTask` on a task in `completed` or `error`
is a strict no-op however often it is called; on an already-`cancelled`
task it raises no error and keeps the status `cancelled`, but overwrites
`completedAt` with the current clock (so only same-clock repetitions
coincide). -/
theorem cancelIdempotent_amended (t : Task) (n1 n2 : Nat) :
    (t.status = TaskStatus.completed ∨ t.status = TaskStatus.error →
      Task.cancel n2 (Task.cancel n1 t) = t) ∧
    (t.status = TaskStatus.cancelled →
      (Task.cancel n1 t).status = TaskStatus.cancelled ∧
      (Task.cancel n1 t).completedAt = some n1 ∧
      Task.cancel n2 (Task.cancel n1 t) = Task.cancel n2 t) := by
  constructor
  · intro h
    have h1 : Task.cancel n1 t = t := by
      unfold Task.cancel
      rw [if_pos h]
    rw [h1]
    unfold Task.cancel
    rw [if_pos h]
  · intro h
    have hc : ¬(t.status = TaskStatus.completed ∨
        t.status = TaskStatus.error) := by
      rw [h]
      decide
    have h1 : Task.cancel n1 t =
        { t with cancelled := true, status := TaskStatus.cancelled,
                 completedAt := some n1 } := by
      unfold Task.cancel
      rw [if_neg hc]
    refine ⟨by rw [h1], by rw [h1], ?_⟩
    rw [h1]
    simp [Task.cancel, hc]

/-- Concrete use of `cancelIdempotent_amended` on a completed task and on
a cancelled task. -/
theorem cancelIdempotent_amended_witness :
    Task.cancel 9 (Task.cancel 8 tDoneW) = tDoneW ∧
    ((Task.cancel 6 tCancelledW).status = TaskStatus.cancelled ∧
     (Task.cancel 6 tCancelledW).completedAt = some 6 ∧
     Task.cancel 7 (Task.cancel 6 tCancelledW) = Task.cancel 7 tCancelledW) :=
  ⟨(cancelIdempotent_amended tDoneW 8 9).1 (by decide),
   (cancelIdempotent_amended tCancelledW 6 7).2 (by decide)⟩

/-- Claim C7: `createTask` returns normally, stores a fresh task under its
id whose status is `pending` and whose `startedAt` is unset, emits the
creation event, and touches neither the active-task pointer nor execution
(only `executeTask` / `execStart` ever starts a task). -/
theorem createTask_behavior (s : ManagerState) (id input : String)
    (cfg : TaskConfig) (now : Nat) :
    (stepOp (Op.create id input cfg now) s).2 = Except.ok () ∧
    lookupA (stepOp (Op.create id input cfg now) s).1.tasks id =
      some (Task.new id input cfg now) ∧
    (Task.new id input cfg now).status = TaskStatus.pending ∧
    (Task.new id input cfg now).startedAt = none ∧
    (stepOp (Op.create id input cfg now) s).1.active = s.active ∧
    (stepOp (Op.create id input cfg now) s).1.events =
      s.events ++ [EventRecord.taskCreated id] := by
  refine ⟨rfl, ?_, rfl, rfl, rfl, rfl⟩
  simp only [stepOp]
  exact lookupA_setA_self s.tasks id _

/-- Claim C8 (counterexample): a task whose provider call threw ends in
the status literally named `error`, which is not one of the six values
the specification enumerates (`failed` and `awaiting_approval` do not
exist in the source union). -/
theorem statusOutsideSpecSet :
    statusName tErrW.status = "error" ∧
    specStatusNames.contains (statusName tErrW.status) = false := by
  decide

/-- Claim C8 (amended): a task status is always one of the five source
values `pending`, `running`, `completed`, `error`, `cancelled`, and the
atomic task operations move the status only along
`pending → running → completed | error` with cancellation from a
non-terminal status (terminal statuses are only ever re-affirmed by
`cancel` on `cancelled`). -/
theorem statusTransitions_amended (t : Task)
    (provider : String → Except String String) (ts tf n : Nat) :
    statusName t.status ∈
      ["pending", "running", "completed", "error", "cancelled"] ∧
    allowedTransition t.status (Task.execute provider ts tf t).1.status =
      true ∧
    allowedTransition t.status (Task.cancel n t).status = true := by
  refine ⟨?_, ?_, ?_⟩
  · cases t.status <;> simp [statusName]
  · cases ht : t.status
    case pending =>
      rcases hp : provider t.input with e | r <;>
        simp [Task.execute, ht, hp, allowedTransition]
    all_goals simp [Task.execute, ht, allowedTransition]
  · cases ht : t.status <;> simp [Task.cancel, ht, allowedTransition]

/-- Claim C2 (spec-modelled sanitizer): a path parameter containing a
traversal sequence, or resolving outside the configured workspace root,
makes the write tool fail with a `SandboxViolation` result and leaves the
observable file system untouched. -/
theorem sandboxContainment (root p content : String) (fs : FsState)
    (h : hasTraversal p = true ∨
         isWithinRoot root (resolvePath root p) = false) :
    (writeFileTool root fs p content).1 = fs ∧
    (writeFileTool root fs p content).2.success = false ∧
    (writeFileTool root fs p content).2.errorKind = some "SandboxViolation" := by
  rcases h with h | h
  · simp [writeFileTool, sanitizePath, h]
  · by_cases ht : hasTraversal p = true
    · simp [writeFileTool, sanitizePath, ht]
    · simp [writeFileTool, sanitizePath, ht, h]

/-- Concrete use of `sandboxContainment` on the traversal path of
Scenario B. -/
theorem sandboxContainment_witness :
    (writeFileTool "/workspace" fs0 "../../etc/passwd" "x").1 = fs0 ∧
    (writeFileTool "/workspace" fs0 "../../etc/passwd" "x").2.success = false ∧
    (writeFileTool "/workspace" fs0 "../../etc/passwd" "x").2.errorKind =
      some "SandboxViolation" :=
  sandboxContainment "/workspace" "../../etc/passwd" "x" fs0
    (Or.inl (by decide))

/-- The loop never performs more round trips than the fuel plus those
already counted. -/
theorem runTaskLoop_rounds_le (model : List Turn → Except String ModelReply)
    (tools : String → List (String × String) → Except String String) :
    ∀ (fuel : Nat) (hist : List Turn) (used : Nat),
      (runTaskLoop model tools fuel hist used).rounds ≤ fuel + used := by
  intro fuel
  induction fuel with
  | zero =>
      intro hist used
      simp [runTaskLoop, LoopOutcome.rounds]
  | succ n ih =>
      intro hist used
      rcases hm : model hist with e | rr
      · simp [runTaskLoop, hm, LoopOutcome.rounds]
      · rcases rr with s | ⟨name, params⟩
        · simp [runTaskLoop, hm, LoopOutcome.rounds]
        · rcases htl : tools name params with e2 | out <;>
            · simp only [runTaskLoop, hm, htl]
              exact le_trans (ih _ _) (by omega)

/-- A `failed` outcome whose round count equals fuel plus the starting
count can only carry the iteration-limit reason. -/
theorem runTaskLoop_exhausted (model : List Turn → Except String ModelReply)
    (tools : String → List (String × String) → Except String String) :
    ∀ (fuel : Nat) (hist : List Turn) (used : Nat) (r : LoopFailReason)
      (k : Nat),
      runTaskLoop model tools fuel hist used = LoopOutcome.failed r k →
      k = fuel + used → r = LoopFailReason.iterationLimitExceeded := by
  intro fuel
  induction fuel with
  | zero =>
      intro hist used r k h hk
      simp [runTaskLoop] at h
      exact h.1.symm
  | succ n ih =>
      intro hist used r k h hk
      rcases hm : model hist with e | rr
      · simp [runTaskLoop, hm] at h
        exfalso
        omega
      · rcases rr with s | ⟨name, params⟩
        · simp [runTaskLoop, hm] at h
        · rcases htl : tools name params with e2 | out <;>
            · simp only [runTaskLoop, hm, htl] at h
              exact ih _ _ _ _ h (by omega)

/-- Claim C5 (spec-modelled loop): task execution performs at most
`maxIterations` model-to-tool round trips; a run that consumes the whole
bound without completing fails with the `iterationLimitExceeded` reason,
which is distinct from every model-error and tool-error reason. -/
theorem iterationBound (model : List Turn → Except String ModelReply)
    (tools : String → List (String × String) → Except String String)
    (maxIterations : Nat) (hist : List Turn) :
    (runTaskLoop model tools maxIterations hist 0).rounds ≤ maxIterations ∧
    (∀ r k,
      runTaskLoop model tools maxIterations hist 0 = LoopOutcome.failed r k →
      k = maxIterations → r = LoopFailReason.iterationLimitExceeded) ∧
    (∀ e, LoopFailReason.iterationLimitExceeded ≠ LoopFailReason.modelError e ∧
          LoopFailReason.iterationLimitExceeded ≠ LoopFailReason.toolError e) := by
  refine ⟨?_, ?_, ?_⟩
  · have := runTaskLoop_rounds_le model tools maxIterations hist 0
    omega
  · intro r k h hk
    exact runTaskLoop_exhausted model tools maxIterations hist 0 r k h
      (by omega)
  · intro e
    exact ⟨by simp, by simp⟩

/-- Concrete use of `iterationBound`: a model stub that always requests a
benign tool, with `maxIterations = 2`, as in Scenario D. -/
theorem iterationBound_witness :
    (runTaskLoop modelW toolsW 2 [] 0).rounds ≤ 2 ∧
    LoopFailReason.iterationLimitExceeded =
      LoopFailReason.iterationLimitExceeded :=
  ⟨(iterationBound modelW toolsW 2 []).1,
   (iterationBound modelW toolsW 2 []).2.1
     LoopFailReason.iterationLimitExceeded 2 (by decide) rfl⟩

/-- Claim C6 (counterexample): executing through a registry that does not
hold the requested tool throws `Tool read_file not found` across the Task
boundary — an exception, not a typed result record. -/
theorem toolRegistryThrowsOnUnknown :
    ToolRegistry.execute [] "read_file" [] =
      Except.error "Tool read_file not found" := rfl

/-- Claim C6 (amended): `ToolRegistry.execute` returns the typed result
of a registered tool unchanged (propagating whatever the tool itself
throws), but throws a `Tool ... not found` error for an unregistered
name instead of returning a typed result. -/
theorem toolRegistryExecuteBehavior (reg : List (String × RegTool))
    (name : String) (params : List (String × String)) :
    (lookupA reg name = none →
      ToolRegistry.execute reg name params =
        Except.error ("Tool " ++ name ++ " not found")) ∧
    (∀ t, lookupA reg name = some t →
      ToolRegistry.execute reg name params = t.run params) := by
  constructor
  · intro h
    simp [ToolRegistry.execute, h]
  · intro t h
    simp [ToolRegistry.execute, h]

/-- Concrete use of `toolRegistryExecuteBehavior` on an empty registry
and on a registry holding the echo tool. -/
theorem toolRegistryExecuteBehavior_witness :
    ToolRegistry.execute [] "write_file" [] =
      Except.error ("Tool " ++ "write_file" ++ " not found") ∧
    ToolRegistry.execute (registerTool [] echoTool) "echo" [] =
      echoTool.run [] :=
  ⟨(toolRegistryExecuteBehavior [] "write_file" []).1 rfl,
   (toolRegistryExecuteBehavior (registerTool [] echoTool) "echo" []).2
     echoTool rfl⟩

/-- An optional value produced under a boolean guard is present exactly
when the guard holds. -/
theorem isSome_if_bool {α : Type} (b : Bool) (x : α) :
    (if b then some x else none).isSome = b := by
  cases b <;> simp

/-- Claim C9: each `NodeLogger` method emits exactly when the message
level rank is at least the configured minimum rank (under
`debug < info < warn < error`), `log` behaves identically to `info`, and
`child` returns a logger whose level equals the parent level at creation
time. -/
theorem nodeLoggerBehavior (lg : NodeLogger) (ts msg pfx : String)
    (m : ErrArg) :
    ((lg.debugLine ts msg).isSome ↔
      levelRank LogLevel.debug ≥ levelRank lg.level) ∧
    ((lg.infoLine ts msg).isSome ↔
      levelRank LogLevel.info ≥ levelRank lg.level) ∧
    ((lg.warnLine ts msg).isSome ↔
      levelRank LogLevel.warn ≥ levelRank lg.level) ∧
    ((lg.errorLine ts m).isSome ↔
      levelRank LogLevel.error ≥ levelRank lg.level) ∧
    lg.logLine ts msg = lg.infoLine ts msg ∧
    (lg.child pfx).level = lg.level := by
  refine ⟨?_, ?_, ?_, ?_, rfl, rfl⟩
  · rw [NodeLogger.debugLine, isSome_if_bool, NodeLogger.shouldLog]
    exact decide_eq_true_iff
  · rw [NodeLogger.infoLine, isSome_if_bool, NodeLogger.shouldLog]
    exact decide_eq_true_iff
  · rw [NodeLogger.warnLine, isSome_if_bool, NodeLogger.shouldLog]
    exact decide_eq_true_iff
  · rw [NodeLogger.errorLine, isSome_if_bool, NodeLogger.shouldLog]
    exact decide_eq_true_iff

/-- The four bytes of a word are all below 256. -/
theorem w4_lt (w : Nat) : ∀ b ∈ w4 w, b < 256 := by
  intro b hb
  simp [w4] at hb
  rcases hb with h | h | h | h <;> omega

/-- A SHA-256 digest has 32 bytes. -/
theorem sha256_length (msg : List Nat) : (sha256 msg).length = 32 := by
  simp [sha256, w4]

/-- Every SHA-256 digest byte is below 256. -/
theorem sha256_lt (msg : List Nat) : ∀ b ∈ sha256 msg, b < 256 := by
  intro b hb
  simp only [sha256, List.mem_append] at hb
  rcases hb with ((((((h | h) | h) | h) | h) | h) | h) | h <;>
    exact w4_lt _ b h

/-- Hex encoding yields two characters per byte. -/
theorem hexEncode_length (bs : List Nat) :
    (hexEncode bs).length = 2 * bs.length := by
  induction bs with
  | nil => simp [hexEncode]
  | cons b tl ih =>
      simp [hexEncode, ih]
      omega

/-- Digit values below sixteen map into the lowercase hex alphabet. -/
theorem hexDigit_mem (n : Nat) (h : n < 16) : hexDigit n ∈ hexDigits := by
  interval_cases n <;> decide

/-- `isLowerHexDigit` holds on every digit below sixteen. -/
theorem isLowerHexDigit_hexDigit (n : Nat) (h : n < 16) :
    isLowerHexDigit (hexDigit n) = true :=
  decide_eq_true (hexDigit_mem n h)

/-- Hex encoding of genuine bytes produces only lowercase hex digits. -/
theorem hexEncode_lower (bs : List Nat) (h : ∀ b ∈ bs, b < 256) :
    ∀ c ∈ hexEncode bs, isLowerHexDigit c = true := by
  induction bs with
  | nil => simp [hexEncode]
  | cons b tl ih =>
      intro c hc
      simp only [hexEncode, List.mem_cons] at hc
      rcases hc with rfl | rfl | hc
      · refine isLowerHexDigit_hexDigit _ ?_
        have hb : b < 256 := h b (by simp)
        exact Nat.div_lt_of_lt_mul (by omega)
      · exact isLowerHexDigit_hexDigit _ (by omega)
      · exact ih (fun x hx => h x (by simp [hx])) c hc

/-- The computed machine id has exactly 32 characters. -/
theorem computeMachineId_length (e : HostEnv) :
    (computeMachineId e).length = 32 := by
  have h1 : (hexEncode (sha256 (strBytes (machineIdentifier e)))).length = 64 := by
    rw [hexEncode_length, sha256_length]
  show ((hexEncode (sha256 (strBytes (machineIdentifier e)))).take 32).length = 32
  rw [List.length_take, h1]
  omega

/-- Every character of the computed machine id is a lowercase hex digit. -/
theorem computeMachineId_lower (e : HostEnv) :
    (computeMachineId e).data.all isLowerHexDigit = true := by
  rw [List.all_eq_true]
  intro c hc
  have hc2 : c ∈ hexEncode (sha256 (strBytes (machineIdentifier e))) :=
    List.take_subset _ _ hc
  exact hexEncode_lower _ (sha256_lt _) c hc2

/-- Claim C10: the `machineId` getter is idempotent on one instance (the
second read returns the first value), yields on a fresh instance the
deterministic hash of hostname, platform and architecture, that value is
a 32-character lowercase hexadecimal string, and two instances whose
hostname, platform and architecture agree return equal machine ids. -/
theorem machineIdProperties (s : NodeSystemInfo) (e1 e2 : HostEnv) :
    (machineIdRead (machineIdRead s).2).1 = (machineIdRead s).1 ∧
    (machineIdRead (mkNodeSystemInfo e1)).1 = computeMachineId e1 ∧
    (computeMachineId e1).length = 32 ∧
    (computeMachineId e1).data.all isLowerHexDigit = true ∧
    (e1.hostname = e2.hostname → e1.platform = e2.platform →
      e1.arch = e2.arch →
      (machineIdRead (mkNodeSystemInfo e1)).1 =
        (machineIdRead (mkNodeSystemInfo e2)).1) := by
  refine ⟨?_, rfl, computeMachineId_length e1, computeMachineId_lower e1, ?_⟩
  · rcases s with ⟨env, _ | v⟩ <;> rfl
  · intro h1 h2 h3
    have he : e1 = e2 := by
      cases e1
      cases e2
      simp_all
    rw [he]

/-- Concrete use of `machineIdProperties`: two fresh instances over the
same host facts return the same machine id. -/
theorem machineIdProperties_witness :
    (machineIdRead (mkNodeSystemInfo envW)).1 =
      (machineIdRead (mkNodeSystemInfo ⟨"myhost", "linux", "x64"⟩)).1 :=
  (machineIdProperties (mkNodeSystemInfo envW) envW
    ⟨"myhost", "linux", "x64"⟩).2.2.2.2 rfl rfl rfl

end RooCore
